import Mathlib

/-!
Verification of the identity / session-authentication service in
`материал к лекции/pro_users.py`.

The Python module is embedded shallowly:

* `hashlib.sha256(...).hexdigest()` is kept abstract: every definition that
  hashes takes an explicit parameter `sha : String → String` standing for the
  hex digest of SHA-256 over a string.  All theorems are proved for an
  arbitrary `sha`, so they hold in particular for the real digest function.
* `uuid.uuid4().hex` draws (the salt inside `User.hash_password` and the
  session token inside `AuthenticationService.login`) are passed in as
  explicit string arguments.
* The class-level list `User.users` together with the two instance fields
  `current_user` / `session_token` of `AuthenticationService` form the state
  record `AuthState`; each Python method becomes a function from state to
  result-and-state.
* The Python methods report outcomes through formatted message strings; each
  distinct message shape is one constructor of a small result inductive, so
  the branch taken is visible to the theorems.
-/

namespace ProUsers

/-- The variant-specific payload: `Customer` adds `address`,
`Admin` adds `admin_level` (source classes `Customer` / `Admin`). -/
inductive Role where
  | customer (address : String)
  | admin (admin_level : Int)
deriving DecidableEq

/-- A user record: fields set by `User.__init__` plus the variant payload
set by the subclass constructor.  `password_hashed` stores the
`salt$hash` digest, never the plaintext. -/
structure User where
  username : String
  email : String
  password_hashed : String
  role : Role
deriving DecidableEq

/-- Source `User.hash_password`: the digest is the salt and the hex hash of
`salt + password`, joined by `"$"`.  The salt (a `uuid4().hex` draw in the
source) is the explicit first argument. -/
def hash_password (sha : String → String) (salt password : String) : String :=
  salt ++ "$" ++ sha (salt ++ password)

/-- Helper for `check_password`: Python's `s.split("$", maxsplit=1)`
followed by unpacking into two variables.  Returns `none` when the
delimiter is absent (the source's `ValueError` branch), otherwise the part
before the first `'$'` and everything after it. -/
def splitDollar : List Char → Option (List Char × List Char)
  | [] => none
  | c :: cs =>
      if c = '$' then some ([], cs)
      else
        match splitDollar cs with
        | none => none
        | some (a, b) => some (c :: a, b)

/-- Source `User.check_password`: split the stored digest on the first `'$'`;
on a malformed digest (no delimiter) return `false`; otherwise recompute
the hash of `salt + provided_password` and compare with the stored hash. -/
def check_password (sha : String → String) (stored_password provided_password : String) : Bool :=
  match splitDollar stored_password.data with
  | none => false
  | some (salt, stored_hash) =>
      sha (String.mk salt ++ provided_password) == String.mk stored_hash

/-- Method `get_details` of each variant (the overriding methods of
`Customer` and `Admin`). -/
def get_details (u : User) : String :=
  match u.role with
  | .customer address =>
      "Клиент: " ++ u.username ++ ", Email: " ++ u.email ++ ", Адрес: " ++ address
  | .admin admin_level =>
      "Админ: " ++ u.username ++ ", Email: " ++ u.email
        ++ ", Уровень доступа: " ++ toString admin_level

/-- The mutable state: the class-level list `User.users` (insertion order
preserved, new users appended at the end) and the session fields of
`AuthenticationService`. -/
structure AuthState where
  users : List User
  current_user : Option User
  session_token : Option String
deriving DecidableEq

/-- Source `AuthenticationService.__init__` together with the initial (empty)
class attribute `User.users = []`. -/
def initState : AuthState :=
  { users := [], current_user := none, session_token := none }

/-- The lookup loop `for user in User.users: if user.username == username`,
returning the first match (used by `register` and `login`). -/
def findByUsername (username : String) : List User → Option User
  | [] => none
  | u :: us => if u.username = username then some u else findByUsername username us

/-- Outcome of `AuthenticationService.register`, one constructor per
return statement: the duplicate-username error message, or the success
message naming the new user and its class. -/
inductive RegisterResult where
  | already_exists (username : String)
  | ok (username class_name : String)
deriving DecidableEq

/-- The name `user_class.__name__` reported in the success message. -/
def Role.className : Role → String
  | .customer _ => "Customer"
  | .admin _ => "Admin"

/-- Source `AuthenticationService.register`: scan `User.users` for the username;
if taken, return the error without mutating anything; otherwise construct
the requested variant (hashing the password with a fresh `salt`) and
append it to the list. -/
def register (sha : String → String) (role : Role)
    (username email password salt : String) (s : AuthState) :
    RegisterResult × AuthState :=
  match findByUsername username s.users with
  | some _ => (.already_exists username, s)
  | none =>
      (.ok username role.className,
        { s with users := s.users ++
            [{ username := username, email := email
               password_hashed := hash_password sha salt password, role := role }] })

/-- Outcome of `AuthenticationService.login`, one constructor per return
statement. -/
inductive LoginResult where
  | success (username token : String)
  | wrong_password
  | not_found (username : String)
deriving DecidableEq

/-- Source `AuthenticationService.login`: find the first user with the given
username (absent → "не найден"); check the password against their digest
(mismatch → "неверный пароль", session untouched); on success store the
user and a fresh session token (`uuid4().hex`, the explicit `token`
argument). -/
def login (sha : String → String) (username password token : String) (s : AuthState) :
    LoginResult × AuthState :=
  match findByUsername username s.users with
  | none => (.not_found username, s)
  | some u =>
      if check_password sha u.password_hashed password then
        (.success u.username token,
          { s with current_user := some u, session_token := some token })
      else
        (.wrong_password, s)

/-- Outcome of `AuthenticationService.logout`. -/
inductive LogoutResult where
  | no_active_session
  | ok (username : String)
deriving DecidableEq

/-- Source `AuthenticationService.logout`: error if nobody is logged in,
otherwise clear both session fields and report the username. -/
def logout (s : AuthState) : LogoutResult × AuthState :=
  match s.current_user with
  | none => (.no_active_session, s)
  | some u =>
      (.ok u.username, { s with current_user := none, session_token := none })

/-- Outcome of `AuthenticationService.get_current_user`. -/
inductive CurrentUserResult where
  | nobody
  | current (details : String)
deriving DecidableEq

/-- Source `AuthenticationService.get_current_user`: reports the details of the
logged-in user, or that nobody is logged in.  Read-only. -/
def get_current_user (s : AuthState) : CurrentUserResult :=
  match s.current_user with
  | none => .nobody
  | some u => .current (get_details u)

/-- Source `Admin.list_users` (a static method: it receives no session and no
capability evidence).  Its observable behaviour is the sequence of printed
lines. -/
def list_users (users : List User) : List String :=
  match users with
  | [] => ["Пользователей пока нет."]
  | _ => "Список пользователей:" :: users.map (fun u => "- " ++ get_details u)

/-- Source `Admin.delete_user` (a static method: no session, no capability
evidence): remove the first user with the given username from
`User.users` and return `true`, or return `false` leaving the list
unchanged. -/
def delete_user (username : String) : List User → Bool × List User
  | [] => (false, [])
  | u :: us =>
      if u.username = username then (true, us)
      else
        let r := delete_user username us
        (r.1, u :: r.2)

/-- Operation `Admin.delete_user` viewed on the full state: it touches only the
class-level `User.users` list; the session fields of any
`AuthenticationService` instance are out of its reach. -/
def delete_user_service (username : String) (s : AuthState) : Bool × AuthState :=
  let r := delete_user username s.users
  (r.1, { s with users := r.2 })

/-- One operation of the service interface, with every internal
randomness draw (salt, token) made explicit. -/
inductive Op where
  | registerOp (role : Role) (username email password salt : String)
  | loginOp (username password token : String)
  | logoutOp
  | currentUserOp
  | deleteOp (username : String)

/-- Apply one operation to the state (result values dropped). -/
def applyOp (sha : String → String) : Op → AuthState → AuthState
  | .registerOp role username email password salt, s =>
      (register sha role username email password salt s).2
  | .loginOp username password token, s => (login sha username password token s).2
  | .logoutOp, s => (logout s).2
  | .currentUserOp, s => s
  | .deleteOp username, s => (delete_user_service username s).2

/-- States reachable from the freshly-initialised service by any sequence
of operations. -/
inductive Reachable (sha : String → String) : AuthState → Prop
  | init : Reachable sha initState
  | step {s : AuthState} (o : Op) : Reachable sha s → Reachable sha (applyOp sha o s)

/-! ### Helper lemmas -/

lemma data_append (s t : String) : (s ++ t).data = s.data ++ t.data := rfl

lemma mk_data (s : String) : String.mk s.data = s := rfl

/-- Applying `splitDollar` to a list with no `'$'` returns `none`
(the `ValueError` branch of `check_password`). -/
lemma splitDollar_eq_none {l : List Char} (h : ∀ c ∈ l, c ≠ '$') :
    splitDollar l = none := by
  induction l with
  | nil => rfl
  | cons c cs ih =>
      have hc : c ≠ '$' := h c (List.mem_cons_self c cs)
      have hcs : ∀ x ∈ cs, x ≠ '$' := fun x hx => h x (List.mem_cons_of_mem c hx)
      simp only [splitDollar, if_neg hc, ih hcs]

/-- Function `splitDollar` splits at the first `'$'`: prepending a `'$'`-free prefix
before `'$' :: b` recovers exactly that prefix and `b`. -/
lemma splitDollar_append {a b : List Char} (h : ∀ c ∈ a, c ≠ '$') :
    splitDollar (a ++ '$' :: b) = some (a, b) := by
  induction a with
  | nil => simp [splitDollar]
  | cons c cs ih =>
      have hc : c ≠ '$' := h c (List.mem_cons_self c cs)
      have hcs : ∀ x ∈ cs, x ≠ '$' := fun x hx => h x (List.mem_cons_of_mem c hx)
      simp only [List.cons_append, splitDollar, if_neg hc]
      rw [show cs.append ('$' :: b) = cs ++ '$' :: b from rfl, ih hcs]

/-- The digest string laid out as a character list: salt, `'$'`, hash. -/
lemma hash_password_data (sha : String → String) (salt password : String) :
    (hash_password sha salt password).data
      = salt.data ++ '$' :: (sha (salt ++ password)).data := by
  simp [hash_password, data_append]

/-- A digest produced by `hash_password` is never the empty string
(it always contains the `'$'` delimiter). -/
lemma hash_password_ne_empty (sha : String → String) (salt password : String) :
    hash_password sha salt password ≠ "" := by
  intro h
  have hd := congrArg String.data h
  rw [hash_password_data] at hd
  simp at hd

/-- Function `findByUsername` returns `none` exactly when no stored user has the
given username. -/
lemma findByUsername_eq_none {username : String} {l : List User} :
    findByUsername username l = none ↔ ∀ u ∈ l, u.username ≠ username := by
  induction l with
  | nil => simp [findByUsername]
  | cons u us ih =>
      by_cases hu : u.username = username
      · simp [findByUsername, hu]
      · simp [findByUsername, hu, ih]

/-! ### Claim theorems -/

/-- C3: for every plaintext password and every salt the hasher may draw
(a `uuid4().hex` value, hence free of the `'$'` delimiter), verifying the
digest produced by hashing the password against that same password
returns `true` — for any underlying digest function `sha`. -/
theorem verify_hash_roundtrip (sha : String → String) (salt password : String)
    (hsalt : ∀ c ∈ salt.data, c ≠ '$') :
    check_password sha (hash_password sha salt password) password = true := by
  unfold check_password
  rw [hash_password_data, splitDollar_append hsalt]
  simp [mk_data]

/-- Witness for C3 at a concrete salt and password. -/
theorem verify_hash_roundtrip_witness :
    (∀ c ∈ ("abcd1234" : String).data, c ≠ '$') ∧
    check_password (fun s => s)
      (hash_password (fun s => s) "abcd1234" "pass123") "pass123" = true :=
  ⟨by decide, verify_hash_roundtrip (fun s => s) "abcd1234" "pass123" (by decide)⟩

/-- C5: `check_password` is a total boolean function by construction, and
on a malformed stored digest (one with no `'$'` delimiter, the case where
the source's `split` unpacking raises `ValueError`) it returns `false`
for every candidate plaintext, for any digest function `sha`. -/
theorem check_password_malformed_false (sha : String → String)
    (stored provided : String) (h : ∀ c ∈ stored.data, c ≠ '$') :
    check_password sha stored provided = false := by
  unfold check_password
  rw [splitDollar_eq_none h]

/-- Witness for C5 at a concrete malformed digest. -/
theorem check_password_malformed_false_witness :
    (∀ c ∈ ("deadbeef" : String).data, c ≠ '$') ∧
    check_password (fun s => s) "deadbeef" "anything" = false :=
  ⟨by decide, check_password_malformed_false (fun s => s) "deadbeef" "anything" (by decide)⟩

/-- C4: when some stored user already has the requested username,
`register` returns the `already_exists` error and the whole state —
registry contents, order and size, and the session fields — is exactly
the state before the call. -/
theorem register_duplicate_no_mutation (sha : String → String) (role : Role)
    (username email password salt : String) (s : AuthState) (u : User)
    (hu : u ∈ s.users) (hname : u.username = username) :
    register sha role username email password salt s
      = (.already_exists username, s) := by
  cases hfind : findByUsername username s.users with
  | none => exact absurd hname (findByUsername_eq_none.mp hfind u hu)
  | some v => simp [register, hfind]

/-- Witness for C4: registering "mikhail" a second time fails and leaves
the state untouched. -/
theorem register_duplicate_no_mutation_witness :
    (⟨"mikhail", "m@e", "a$b", .customer "Moscow"⟩ : User)
        ∈ (⟨[⟨"mikhail", "m@e", "a$b", .customer "Moscow"⟩], none, none⟩ : AuthState).users ∧
    register (fun s => s) (.customer "Somewhere") "mikhail" "other@e" "qwerty" "salt2"
        ⟨[⟨"mikhail", "m@e", "a$b", .customer "Moscow"⟩], none, none⟩
      = (.already_exists "mikhail",
         ⟨[⟨"mikhail", "m@e", "a$b", .customer "Moscow"⟩], none, none⟩) :=
  ⟨by decide,
   register_duplicate_no_mutation (fun s => s) (.customer "Somewhere")
     "mikhail" "other@e" "qwerty" "salt2"
     ⟨[⟨"mikhail", "m@e", "a$b", .customer "Moscow"⟩], none, none⟩
     ⟨"mikhail", "m@e", "a$b", .customer "Moscow"⟩ (by decide) rfl⟩

/-- C6: when the username is present (first matching stored user `u`) but
the supplied password does not verify against `u`'s stored digest,
`login` reports a wrong password and returns the state completely
unchanged — in particular `current_user` and `session_token` keep their
previous values. -/
theorem login_wrong_password_session_unchanged (sha : String → String)
    (username password token : String) (s : AuthState) (u : User)
    (hfind : findByUsername username s.users = some u)
    (hcheck : check_password sha u.password_hashed password = false) :
    login sha username password token s = (.wrong_password, s) := by
  simp [login, hfind, hcheck]

/-- Witness for C6 at a concrete state with an existing session. -/
theorem login_wrong_password_session_unchanged_witness :
    findByUsername "mikhail"
        (⟨[⟨"mikhail", "m@e", "a$b", .customer "Moscow"⟩], none, some "old"⟩ : AuthState).users
      = some ⟨"mikhail", "m@e", "a$b", .customer "Moscow"⟩ ∧
    check_password (fun _ => "zzz") "a$b" "wrongpw" = false ∧
    login (fun _ => "zzz") "mikhail" "wrongpw" "newtok"
        ⟨[⟨"mikhail", "m@e", "a$b", .customer "Moscow"⟩], none, some "old"⟩
      = (.wrong_password,
         ⟨[⟨"mikhail", "m@e", "a$b", .customer "Moscow"⟩], none, some "old"⟩) :=
  ⟨by decide, by decide,
   login_wrong_password_session_unchanged (fun _ => "zzz") "mikhail" "wrongpw" "newtok"
     ⟨[⟨"mikhail", "m@e", "a$b", .customer "Moscow"⟩], none, some "old"⟩
     ⟨"mikhail", "m@e", "a$b", .customer "Moscow"⟩ (by decide) (by decide)⟩

/-- C10: `login` never changes the registry: whatever the outcome
(success, wrong password, unknown user), the `users` list of the
resulting state is exactly the `users` list before the call; `login`
writes only the session fields. -/
theorem login_preserves_registry (sha : String → String)
    (username password token : String) (s : AuthState) :
    ((login sha username password token s).2).users = s.users := by
  unfold login
  split
  · rfl
  · split <;> rfl

/-- C9: `logout` fails with the no-active-session error exactly when
nobody is logged in, in which case the state is unchanged; when a user is
logged in, it returns that username, clears both `current_user` and
`session_token`, and `get_current_user` on the resulting state reports
nobody. -/
theorem logout_spec (s : AuthState) :
    ((logout s).1 = .no_active_session ↔ s.current_user = none) ∧
    (s.current_user = none → logout s = (.no_active_session, s)) ∧
    (∀ u, s.current_user = some u →
      (logout s).1 = .ok u.username ∧
      (logout s).2.current_user = none ∧
      (logout s).2.session_token = none ∧
      get_current_user (logout s).2 = .nobody) := by
  cases h : s.current_user with
  | none => simp [logout, get_current_user, h]
  | some u => simp [logout, get_current_user, h]

/-- Witness for C9: logging out a concrete authenticated admin. -/
theorem logout_spec_witness :
    (logout ⟨[], some ⟨"root", "a@e", "a$b", .admin 10⟩, some "tok"⟩).1 = .ok "root" ∧
    (logout ⟨[], some ⟨"root", "a@e", "a$b", .admin 10⟩, some "tok"⟩).2.current_user = none ∧
    (logout ⟨[], some ⟨"root", "a@e", "a$b", .admin 10⟩, some "tok"⟩).2.session_token = none ∧
    get_current_user (logout ⟨[], some ⟨"root", "a@e", "a$b", .admin 10⟩, some "tok"⟩).2
      = .nobody := by
  exact (logout_spec ⟨[], some ⟨"root", "a@e", "a$b", .admin 10⟩, some "tok"⟩).2.2
    ⟨"root", "a@e", "a$b", .admin 10⟩ rfl

/-- The session-shape invariant: `current_user` is absent exactly when
`session_token` is absent. -/
lemma applyOp_session_iff (sha : String → String) (o : Op) (s : AuthState)
    (h : s.current_user = none ↔ s.session_token = none) :
    (applyOp sha o s).current_user = none ↔ (applyOp sha o s).session_token = none := by
  cases o with
  | registerOp role username email password salt =>
      simp only [applyOp]
      unfold register
      split
      · exact h
      · simpa using h
  | loginOp username password token =>
      simp only [applyOp]
      unfold login
      split
      · exact h
      · split
        · simp
        · exact h
  | logoutOp =>
      simp only [applyOp]
      unfold logout
      split
      · exact h
      · simp
  | currentUserOp => simpa only [applyOp] using h
  | deleteOp username =>
      simp only [applyOp]
      simpa [delete_user_service] using h

/-- Every reachable state satisfies the session-shape invariant. -/
lemma reachable_session_iff (sha : String → String) {s : AuthState}
    (h : Reachable sha s) : s.current_user = none ↔ s.session_token = none := by
  induction h with
  | init => simp [initState]
  | step o _ ih => exact applyOp_session_iff sha o _ ih

/-- The registry invariant maintained by the service: pairwise distinct
usernames and no empty stored digest. -/
def UsersInv (l : List User) : Prop :=
  l.Pairwise (fun a b => a.username ≠ b.username) ∧ ∀ u ∈ l, u.password_hashed ≠ ""

/-- The list produced by `Admin.delete_user` is a sublist of the input. -/
lemma delete_user_sublist (username : String) (l : List User) :
    (delete_user username l).2.Sublist l := by
  induction l with
  | nil => simp [delete_user]
  | cons u us ih =>
      by_cases hu : u.username = username
      · simp [delete_user, hu]
      · simpa [delete_user, hu] using List.Sublist.cons₂ u ih

/-- Each operation preserves the registry invariant. -/
lemma usersInv_applyOp (sha : String → String) (o : Op) (s : AuthState)
    (h : UsersInv s.users) : UsersInv (applyOp sha o s).users := by
  cases o with
  | registerOp role username email password salt =>
      simp only [applyOp]
      unfold register
      split
      · exact h
      · rename_i hfind
        have hnone : ∀ u ∈ s.users, u.username ≠ username :=
          findByUsername_eq_none.mp hfind
        constructor
        · rw [List.pairwise_append]
          refine ⟨h.1, List.pairwise_singleton _ _, ?_⟩
          intro a ha b hb
          simp only [List.mem_singleton] at hb
          subst hb
          exact hnone a ha
        · intro u hu
          rcases List.mem_append.mp hu with h1 | h2
          · exact h.2 u h1
          · simp only [List.mem_singleton] at h2
            subst h2
            exact hash_password_ne_empty sha salt password
  | loginOp username password token =>
      simp only [applyOp]
      unfold login
      split
      · exact h
      · split
        · simpa using h
        · exact h
  | logoutOp =>
      simp only [applyOp]
      unfold logout
      split
      · exact h
      · simpa using h
  | currentUserOp => simpa only [applyOp] using h
  | deleteOp username =>
      simp only [applyOp, delete_user_service]
      have hsub := delete_user_sublist username s.users
      exact ⟨h.1.sublist hsub, fun u hu => h.2 u (hsub.subset hu)⟩

/-- Every reachable state satisfies the registry invariant. -/
lemma reachable_usersInv (sha : String → String) {s : AuthState}
    (h : Reachable sha s) : UsersInv s.users := by
  induction h with
  | init => exact ⟨List.Pairwise.nil, by simp [initState]⟩
  | step o _ ih => exact usersInv_applyOp sha o _ ih

/-- C7: the service starts Anonymous (no principal, no token), and every
state reachable by any sequence of operations is either Anonymous (both
session fields absent) or Authenticated (both present) — never one
without the other.  The operation set here includes the administrative
delete as well, which only strengthens the claim over its four listed
operations. -/
theorem session_two_states (sha : String → String) :
    initState.current_user = none ∧ initState.session_token = none ∧
    ∀ s, Reachable sha s →
      ((s.current_user = none ∧ s.session_token = none) ∨
       (∃ u t, s.current_user = some u ∧ s.session_token = some t)) := by
  refine ⟨rfl, rfl, fun s hs => ?_⟩
  have h := reachable_session_iff sha hs
  cases hc : s.current_user with
  | none => exact Or.inl ⟨rfl, h.mp hc⟩
  | some u =>
      cases ht : s.session_token with
      | none =>
          rw [hc] at h
          simp at h
          exact absurd ht h
      | some t => exact Or.inr ⟨u, t, rfl, rfl⟩

/-- Witness for C7 at the initial (reachable) state. -/
theorem session_two_states_witness :
    (initState.current_user = none ∧ initState.session_token = none) ∨
    (∃ u t, initState.current_user = some u ∧ initState.session_token = some t) :=
  (session_two_states (fun s => s)).2.2 initState Reachable.init

/-- C8: in every reachable registry state (principals created only by
`register`, removed only by the administrative delete; `login`, `logout`
and `get_current_user` never touch the list), all stored usernames are
pairwise distinct and every stored digest is a non-empty string. -/
theorem registry_unique_usernames_nonempty_digests (sha : String → String)
    (s : AuthState) (h : Reachable sha s) :
    s.users.Pairwise (fun a b => a.username ≠ b.username) ∧
    ∀ u ∈ s.users, u.password_hashed ≠ "" :=
  reachable_usersInv sha h

/-- Witness for C8 at the initial (reachable) state. -/
theorem registry_unique_usernames_nonempty_digests_witness :
    initState.users.Pairwise (fun a b => a.username ≠ b.username) ∧
    ∀ u ∈ initState.users, u.password_hashed ≠ "" :=
  registry_unique_usernames_nonempty_digests (fun s => s) initState Reachable.init

/-- C1 (divergence witness): the administrative operations of the source
are static methods that receive no session and perform no capability
check.  At a state whose session is Anonymous (certainly not an Admin),
`Admin.delete_user` still deletes the user and returns `true`, and
`Admin.list_users` still produces the full listing — there is no
`Unauthorized` failure anywhere in the code. -/
theorem admin_ops_unguarded :
    (⟨[⟨"mikhail", "m@e", "a$b", .customer "Moscow"⟩], none, none⟩ : AuthState).current_user
        = none ∧
    delete_user_service "mikhail"
        ⟨[⟨"mikhail", "m@e", "a$b", .customer "Moscow"⟩], none, none⟩
      = (true, ⟨[], none, none⟩) ∧
    list_users [⟨"mikhail", "m@e", "a$b", .customer "Moscow"⟩]
      = ["Список пользователей:",
         "- " ++ get_details ⟨"mikhail", "m@e", "a$b", .customer "Moscow"⟩] :=
  ⟨rfl, rfl, rfl⟩

/-- C2 (divergence witness): `Admin.delete_user` is a static method with
no access to any `AuthenticationService` session.  Deleting an
authenticated admin's own username removes them from the registry but
leaves `current_user` and `session_token` exactly as they were, so the
session still references — and `get_current_user` still reports — the
removed principal; no implicit logout happens. -/
theorem delete_self_session_dangling :
    delete_user_service "root"
        ⟨[⟨"root", "a@e", "a$b", .admin 10⟩],
         some ⟨"root", "a@e", "a$b", .admin 10⟩, some "tok"⟩
      = (true, ⟨[], some ⟨"root", "a@e", "a$b", .admin 10⟩, some "tok"⟩) ∧
    (⟨[], some ⟨"root", "a@e", "a$b", .admin 10⟩, some "tok"⟩ : AuthState).current_user
      = some ⟨"root", "a@e", "a$b", .admin 10⟩ ∧
    (⟨[], some ⟨"root", "a@e", "a$b", .admin 10⟩, some "tok"⟩ : AuthState).session_token
      = some "tok" ∧
    get_current_user ⟨[], some ⟨"root", "a@e", "a$b", .admin 10⟩, some "tok"⟩
      = .current (get_details ⟨"root", "a@e", "a$b", .admin 10⟩) :=
  ⟨rfl, rfl, rfl, rfl⟩

end ProUsers
